import Mathlib

/-!
Shallow embedding of src/faiss_server/faiss_server.py (GeoCopilot FAISS server).

The server keeps three pieces of in-process mutable state: a FAISS IndexFlatL2
(an append-only list of fixed-dimension float vectors), a metadata store (a
Python list of equipment records, positionally aligned with the index), and a
staging batch pool with a last-append timestamp.  HTTP handlers mutate or read
this state.  We embed the state as an explicit `ServerState` record threaded
through the handler functions.

External collaborators are parameters of the handler functions:
the OpenAI embedding call (a value of type `List String -> Except String (List Vec)`,
an `Except.error` standing for a raised exception), the chat-completion call,
the clock, and the existence of the two persistence files on disk.  Embedding
coordinates are modelled as integers: the claims under study only compare L2
distances, never exercise float rounding.

A handler written in Python with a try/except around its whole body is embedded
as a total function into its response type (every exception is converted into
an error response).  insert_json_batch has no try/except, so it is embedded as
returning `Except String InsertResponse`: an `Except.error` value is an
exception escaping the handler to the framework.
-/

namespace FaissServer

/-- JSON-like values stored in the fields of an equipment record.  The claims
only ever distinguish null, strings, integers and lists of strings. -/
inductive JVal where
  | jnull : JVal
  | jstr : String → JVal
  | jint : Int → JVal
  | jstrList : List String → JVal
deriving DecidableEq, Repr

/-- Python str() rendering of a record field value.  str(None) is "None",
strings render as themselves, integers in decimal, and a list of strings as
Python renders a list of str (repr quotes around each element). -/
def pyStrJ : JVal → String
  | .jnull => "None"
  | .jstr s => s
  | .jint n => toString n
  | .jstrList l =>
      "[" ++ String.intercalate ", " (l.map (fun s => "\x27" ++ s ++ "\x27")) ++ "]"

/-- An equipment record: a JSON object, i.e. a Python dict from field names to
values, embedded as an association list (insertion order, no duplicate keys in
any record built from JSON). -/
structure EquipRecord where
  fields : List (String × JVal)
deriving DecidableEq, Repr

/-- Python dict .get(k): the value stored under k, or none when the key is
absent (Python would yield the None object). -/
def EquipRecord.get (e : EquipRecord) (k : String) : Option JVal :=
  (e.fields.find? (fun p => p.1 == k)).map Prod.snd

/-- Python str(x) applied to the result of a .get lookup: an absent field and a
null field both render as "None". -/
def pyStr (v : Option JVal) : String :=
  match v with
  | none => "None"
  | some v => pyStrJ v

/-- The identifier string the ingest pipeline dedups on:
str(e.get("element")), as computed at lines 194 and 197 of the source. -/
def elementId (e : EquipRecord) : String := pyStr (e.get "element")

/-- Python [, ].join applied to a list-of-strings field with default [] (the
source joins e.get("applicable_codes", []) and
e.get("inspection_requirements", [])).  A present non-list value would raise a
TypeError in Python; the claims only exercise well-typed records, for which
the field is either absent or a list of strings. -/
def joinField (v : Option JVal) : String :=
  match v with
  | some (.jstrList l) => String.intercalate ", " l
  | _ => ""

/-- format_equipment_text (source lines 46-53): the fixed descriptive-text
template rendered from a record, used as the embedding input. -/
def format_equipment_text (e : EquipRecord) : String :=
  "\n    Equipment " ++ pyStr (e.get "name") ++ " (element ID "
    ++ pyStr (e.get "element") ++ ") is part of the " ++ pyStr (e.get "system")
    ++ ".\n    It is a " ++ pyStr (e.get "equipment_concept")
    ++ " with function: " ++ pyStr (e.get "function")
    ++ ".\n    It adheres to codes: " ++ joinField (e.get "applicable_codes")
    ++ ".\n    Maintenance strategy: " ++ pyStr (e.get "maintenance_strategy")
    ++ ".\n    Inspection includes: "
    ++ joinField (e.get "inspection_requirements") ++ ".\n    "

/-- An embedding vector.  FAISS stores fixed-dimension float32 vectors; the
claims only compare L2 distances, so coordinates are embedded as integers. -/
abbrev Vec := List Int

/-- The global mutable state of the server process: the FAISS index (the list
of added vectors, in insertion order; index.ntotal is its length), the
metadata store, the staging batch pool and the last-append timestamp. -/
structure ServerState where
  index : List Vec
  metadata_store : List EquipRecord
  batch_pool : List EquipRecord
  last_append_time : Int
deriving DecidableEq, Repr

/-- Python dict assignment d[k] = v: an existing key keeps its position and
gets the new value, a new key is appended at the end (insertion order). -/
def dictInsert (d : List (String × EquipRecord)) (k : String) (v : EquipRecord) :
    List (String × EquipRecord) :=
  if d.any (fun p => p.1 == k) then
    d.map (fun p => if p.1 == k then (k, v) else p)
  else d ++ [(k, v)]

/-- The unique_equipment dict built by the first loop of insert_json_batch
(source lines 192-195): for e in equipment_list,
unique_equipment[str(e.get("element"))] = e. -/
def uniqueEquipment (equipment_list : List EquipRecord) :
    List (String × EquipRecord) :=
  equipment_list.foldl (fun d e => dictInsert d (elementId e) e) []

/-- existing_ids (source line 197): the identifiers of the records already in
the metadata store.  The Python set is embedded as the list of identifiers;
only membership tests are performed on it. -/
def existingIds (store : List EquipRecord) : List String := store.map elementId

/-- new_equipment (source line 198): the values of the unique_equipment dict
whose key is not an existing identifier, in dict order. -/
def newEquipment (store : List EquipRecord) (batch : List EquipRecord) :
    List EquipRecord :=
  ((uniqueEquipment batch).filter
      (fun p => !(existingIds store).contains p.1)).map Prod.snd

/-- The JSON body of an /insert_json_batch response together with the HTTP
status Flask attaches to it (200 when none is given explicitly). -/
structure InsertResponse where
  status : String
  message : Option String
  inserted : Nat
  total_in_db : Option Nat
  pool_size : Option Nat
  httpStatus : Nat
deriving DecidableEq, Repr

/-- insert_json_batch (source lines 188-218), the POST /insert_json_batch
handler.  `embed` is the external get_embedding_batch call (lines 55-60): it
receives the rendered texts and either returns one vector per text (the
provider contract) or raises, which `Except.error` models.  `now` is the value
time.time() returns at line 211.  The function returns the state the globals
hold when the handler finishes, together with either the JSON response or an
exception escaping the handler (this handler has no try/except).  The
np.stack call at line 205 raises on an empty vector list, before any state is
mutated; every other path mutates index, store and pool together or not at
all. -/
def insert_json_batch (embed : List String → Except String (List Vec))
    (now : Int) (st : ServerState) (equipment_list : List EquipRecord) :
    ServerState × Except String InsertResponse :=
  let new_equipment := newEquipment st.metadata_store equipment_list
  if new_equipment.isEmpty then
    (st, .ok { status := "duplicate",
               message := some "All elements already exist.",
               inserted := 0, total_in_db := none, pool_size := none,
               httpStatus := 409 })
  else
    match embed (new_equipment.map format_equipment_text) with
    | .error msg => (st, .error msg)
    | .ok vectors =>
      if vectors.isEmpty then
        (st, .error "need at least one array to stack")
      else
        let st' : ServerState :=
          { index := st.index ++ vectors
            metadata_store := st.metadata_store ++ new_equipment
            batch_pool := st.batch_pool ++ new_equipment
            last_append_time := now }
        (st', .ok { status := "ok", message := none,
                    inserted := new_equipment.length,
                    total_in_db := some st'.metadata_store.length,
                    pool_size := some st'.batch_pool.length,
                    httpStatus := 200 })

/-- Python dict counting update d[k] = d.get(k, 0) + 1 used for the export
statistics (source lines 83-84): an existing key keeps its position, a new key
is appended with count 1. -/
def bumpCount (d : List (JVal × Nat)) (k : JVal) : List (JVal × Nat) :=
  if d.any (fun p => p.1 == k) then
    d.map (fun p => if p.1 == k then (p.1, p.2 + 1) else p)
  else d ++ [(k, 1)]

/-- Python item.get(k, default): the stored value, or the default when the key
is absent. -/
def EquipRecord.getD (e : EquipRecord) (k : String) (dflt : JVal) : JVal :=
  match e.get k with
  | none => dflt
  | some v => v

/-- The content of the complete_database.json snapshot built by
save_complete_database (source lines 76-99).  The export_time wall-clock
string is omitted; database_version is the constant "1.0". -/
structure DatabaseJson where
  total_equipment : Nat
  faiss_index_size : Nat
  equipment_by_system : List (JVal × Nat)
  equipment_by_category : List (JVal × Nat)
  data_consistency : Bool
  equipment_database : List EquipRecord
deriving DecidableEq, Repr

/-- save_complete_database (source lines 67-109): builds the JSON snapshot
from the in-memory state.  The disk write is not embedded (a write failure
re-raises into the calling handler; the claims under study never exercise
it), so the function returns the written content. -/
def save_complete_database (st : ServerState) : DatabaseJson :=
  { total_equipment := st.metadata_store.length
    faiss_index_size := st.index.length
    equipment_by_system :=
      st.metadata_store.foldl
        (fun d item => bumpCount d (item.getD "system" (.jstr "Unknown"))) []
    equipment_by_category :=
      st.metadata_store.foldl
        (fun d item => bumpCount d (item.getD "subcategory" (.jstr "Unknown"))) []
    data_consistency := st.index.length == st.metadata_store.length
    equipment_database := st.metadata_store }

/-- Result of the GET /export/database_json handler: either a JSON error body
with its HTTP status, or the exported file content. -/
inductive ExportJsonResult where
  | errorResp (message : String) (httpStatus : Nat)
  | fileResp (data : DatabaseJson)
deriving DecidableEq, Repr

/-- export_database_json (source lines 245-268), the GET /export/database_json
handler.  The empty-store guard returns a 400 JSON error; otherwise the
snapshot is regenerated and sent.  The os.path.exists re-check after a
successful write is always true and elided; the surrounding try/except is
unreachable in this pure embedding. -/
def export_database_json (st : ServerState) : ExportJsonResult :=
  if st.metadata_store.length == 0 then
    .errorResp "No data to export. Database is empty." 400
  else
    .fileResp (save_complete_database st)

/-- One entry of the three-file export zip archive. -/
inductive ZipEntry where
  | databaseJson (data : DatabaseJson)
  | faissIndexFile
  | metadataPkl
deriving DecidableEq, Repr

/-- create_three_file_export (source lines 111-146): the zip is built by first
regenerating the database JSON (always added), then adding faiss.index and
metadata.pkl only when those files exist on disk; a missing file is only
warned about and does not abort the bundle.  File existence on disk is passed
in as the two flags. -/
def create_three_file_export (st : ServerState)
    (indexFileExists metaFileExists : Bool) : List ZipEntry :=
  [ZipEntry.databaseJson (save_complete_database st)]
    ++ (if indexFileExists then [ZipEntry.faissIndexFile] else [])
    ++ (if metaFileExists then [ZipEntry.metadataPkl] else [])

/-- Result of the GET /export/three_files handler. -/
inductive ZipExportResult where
  | errorResp (message : String) (httpStatus : Nat)
  | fileResp (entries : List ZipEntry)
deriving DecidableEq, Repr

/-- export_three_files (source lines 220-243), the GET /export/three_files
handler: a 400 JSON error when the store is empty, otherwise the zip bundle. -/
def export_three_files (st : ServerState)
    (indexFileExists metaFileExists : Bool) : ZipExportResult :=
  if st.metadata_store.length == 0 then
    .errorResp "No data to export. Database is empty." 400
  else
    .fileResp (create_three_file_export st indexFileExists metaFileExists)

/-- Outcome of one iteration of the pool_monitor loop body: either the
iteration completed, releasing batch_pool_lock and leaving the given pool
behind, or the thread blocked forever part way through (a deadlock),
leaving the given pool behind with the lock held for good. -/
inductive TickOutcome where
  | completed (pool : List EquipRecord)
  | deadlocked (pool : List EquipRecord)
deriving DecidableEq, Repr

/-- save_and_clear_pool (source lines 154-159).  Its body opens with
`with batch_pool_lock`; batch_pool_lock is a non-reentrant threading.Lock
(source line 64), so when the calling thread already holds that lock
(`lockHeldByCaller`) the acquisition blocks forever and the body never
runs: a self-deadlock, before any mutation.  Only with the lock free does
the body run, clearing a non-empty pool. -/
def save_and_clear_pool (lockHeldByCaller : Bool)
    (batch_pool : List EquipRecord) : TickOutcome :=
  if lockHeldByCaller then .deadlocked batch_pool
  else .completed (if batch_pool.isEmpty then batch_pool else [])

/-- One iteration of the pool_monitor loop body after its 10-unit sleep
(source lines 161-167): the loop acquires batch_pool_lock and, if the pool
is non-empty and time.time() - last_append_time[0] > 30, calls
save_and_clear_pool while still holding the lock -- which self-deadlocks on
the nested acquisition, so batch_pool.clear() is never reached; otherwise
the iteration completes with the pool untouched. -/
def pool_monitor_tick (now : Int) (batch_pool : List EquipRecord)
    (last_append_time : Int) : TickOutcome :=
  if !batch_pool.isEmpty && decide (now - last_append_time > 30) then
    save_and_clear_pool true batch_pool
  else .completed batch_pool

/-- Squared L2 distance between two vectors.  FAISS IndexFlatL2 ranks and
reports squared Euclidean distances, whose ordering agrees with the L2
ordering. -/
def sqDist (u v : Vec) : Int :=
  (List.zipWith (fun a b => (a - b) * (a - b)) u v).sum

/-- Models the external FAISS library call index.search(q, k) on an
IndexFlatL2 holding the vectors `ivs` (source line 365): the result row for
the single query holds exactly k labels, the positions of the k nearest
stored vectors in ascending squared-L2 distance (ties in position order);
when the index holds fewer than k vectors, FAISS fills the remaining label
slots with -1. -/
def faissSearchLabels (ivs : List Vec) (q : Vec) (k : Nat) : List Int :=
  (((List.insertionSort (fun a b => sqDist q a.2 ≤ sqDist q b.2)
      ivs.enum).map (fun p => (p.1 : Int))).take k)
    ++ List.replicate (k - ivs.length) (-1)

/-- Python list indexing xs[i] with Int index: a negative index counts from
the end (xs[-1] is the last element); none is an IndexError. -/
def pyGetItem {α : Type} (xs : List α) (i : Int) : Option α :=
  if 0 ≤ i then xs.get? i.toNat
  else if 0 ≤ i + xs.length then xs.get? (i + (xs.length : Int)).toNat
  else none

/-- The index vector a result label refers to under Python indexing, for
stating distance ordering (out-of-range labels yield the empty vector). -/
def pyVecAt (ivs : List Vec) (i : Int) : Vec := (pyGetItem ivs i).getD []

/-- Python request.json.get("top_k", 50) (source lines 357 and 377): the
requested k, defaulting to 50 when top_k is omitted. -/
def pyGetTopK (top_k : Option Nat) : Nat := top_k.getD 50

/-- The result labels the query handlers keep (source line 366): the search
labels i with i < len(metadata_store).  The comparison is Python int
comparison, so the -1 padding labels pass this guard whenever the store is
non-empty. -/
def query_labels_kept (st : ServerState) (qv : Vec) (k : Nat) : List Int :=
  (faissSearchLabels st.index qv k).filter
    (fun i => decide (i < (st.metadata_store.length : Int)))

/-- Sequences a list of optional lookups: some list exactly when every lookup
succeeded (a failed Python index raises an IndexError). -/
def seqOpt {α : Type} : List (Option α) → Option (List α)
  | [] => some []
  | o :: rest =>
    match o, seqOpt rest with
    | some a, some l' => some (a :: l')
    | _, _ => none

/-- Result of the POST /query handler: either the matched records or a JSON
error body with its HTTP status. -/
inductive QueryResult where
  | errorResp (message : String) (httpStatus : Nat)
  | results (records : List EquipRecord)
deriving DecidableEq, Repr

/-- query_equipment (source lines 352-370), the POST /query handler.
`embedQuery` is the external embedding call on the query string (an
Except.error is a raised provider exception); `top_k` is the optional top_k
request field.  The handler body is wrapped in a try/except that converts any
exception (provider failure, IndexError) into a JSON error with HTTP 500. -/
def query_equipment (embedQuery : Except String Vec) (top_k : Option Nat)
    (st : ServerState) : QueryResult :=
  match embedQuery with
  | .error msg => .errorResp msg 500
  | .ok qv =>
    let kept := query_labels_kept st qv (pyGetTopK top_k)
    match seqOpt (kept.map (pyGetItem st.metadata_store)) with
    | none => .errorResp "list index out of range" 500
    | some recs => .results recs

/-- Result of the POST /query/summary handler. -/
inductive SummaryResult where
  | errorResp (message : String) (httpStatus : Nat)
  | answerResp (answer : String)
deriving DecidableEq, Repr

/-- query_summary (source lines 372-408), the POST /query/summary handler:
the same search, then the kept records rendered and concatenated into a
context block, fed with the question into a fixed prompt sent to the external
chat-completion call `complete`.  All exceptions are converted to a 500 JSON
error by the try/except. -/
def query_summary (embedQuery : Except String Vec)
    (complete : String → Except String String) (top_k : Option Nat)
    (st : ServerState) (q : String) : SummaryResult :=
  match embedQuery with
  | .error msg => .errorResp msg 500
  | .ok qv =>
    let kept := query_labels_kept st qv (pyGetTopK top_k)
    match seqOpt (kept.map (pyGetItem st.metadata_store)) with
    | none => .errorResp "list index out of range" 500
    | some recs =>
      let context :=
        recs.foldl (fun acc r => acc ++ format_equipment_text r ++ "\n\n") ""
      let prompt :=
        "\nYou are an engineering assistant. Given the following equipment information:\n\n"
          ++ context ++ "\n\nAnswer the question: \"" ++ q ++ "\"\n"
      match complete prompt with
      | .error msg => .errorResp msg 500
      | .ok answer => .answerResp answer

/-- Result of the POST /save_now handler. -/
inductive SaveNowResult where
  | errorResp (message : String) (httpStatus : Nat)
  | okResp (faiss_vectors : Nat) (metadata_items : Nat)
deriving DecidableEq, Repr

/-- save_now (source lines 316-332), the POST /save_now handler.
`writeResult` abstracts the two disk writes (an Except.error is a raised
exception); the try/except converts a failure into a 500 JSON error. -/
def save_now (writeResult : Except String Unit) (st : ServerState) :
    SaveNowResult :=
  match writeResult with
  | .error msg => .errorResp msg 500
  | .ok _ => .okResp st.index.length st.metadata_store.length

/-- The last occurrence in l of a record with identifier k, when any. -/
def lastOcc (l : List EquipRecord) (k : String) : Option EquipRecord :=
  l.reverse.find? (fun e => elementId e == k)

/-- The JSON response and HTTP status insert_json_batch returns when the
whole batch filters away. -/
def duplicateResponse : InsertResponse :=
  { status := "duplicate", message := some "All elements already exist.",
    inserted := 0, total_in_db := none, pool_size := none, httpStatus := 409 }

/-! Sample records and states used by the concrete witnesses below. -/

/-- A record whose element field is the string "A1". -/
def recA1 : EquipRecord := ⟨[("element", .jstr "A1")]⟩

/-- A record whose element field is the string "B1". -/
def recB1 : EquipRecord := ⟨[("element", .jstr "B1")]⟩

/-- A record whose element field is the integer 5. -/
def recInt5 : EquipRecord := ⟨[("element", .jint 5), ("name", .jstr "five")]⟩

/-- A record whose element field is the string "5". -/
def recStr5 : EquipRecord := ⟨[("element", .jstr "5"), ("name", .jstr "cinq")]⟩

/-- A record with no element field at all. -/
def recNoElem : EquipRecord := ⟨[("name", .jstr "anon")]⟩

/-- The state of a freshly started server with no persisted data. -/
def emptyState : ServerState := ⟨[], [], [], 0⟩

/-- A two-vector state for exercising the query padding behaviour: the
vector at position 0 is far from the zero query, the one at position 1 is
the query itself. -/
def stTwo : ServerState := ⟨[[10], [0]], [recA1, recB1], [], 0⟩

/-- An embedding oracle that returns the one-coordinate zero vector for every
text: it satisfies the provider contract of one vector per input. -/
def embedOne : List String → Except String (List Vec) :=
  fun ts => .ok (ts.map (fun _ => ([0] : Vec)))

/-! Helper lemmas about the Python-dict embedding used by the dedup loop. -/

theorem mem_dictInsert {d : List (String × EquipRecord)} {k : String}
    {v : EquipRecord} {p : String × EquipRecord} (hp : p ∈ dictInsert d k v) :
    p ∈ d ∨ p = (k, v) := by
  unfold dictInsert at hp
  by_cases h : (d.any (fun p => p.1 == k)) = true
  · rw [if_pos h] at hp
    rcases List.mem_map.mp hp with ⟨q, hq, hfq⟩
    by_cases hk : (q.1 == k) = true
    · rw [if_pos hk] at hfq
      exact Or.inr hfq.symm
    · rw [if_neg hk] at hfq
      exact Or.inl (hfq ▸ hq)
  · rw [if_neg h] at hp
    rcases List.mem_append.mp hp with h' | h'
    · exact Or.inl h'
    · exact Or.inr (List.mem_singleton.mp h')

theorem mem_foldl_dictInsert (l : List EquipRecord)
    (d : List (String × EquipRecord)) (p : String × EquipRecord)
    (hp : p ∈ l.foldl (fun d e => dictInsert d (elementId e) e) d) :
    p ∈ d ∨ (p.1 = elementId p.2 ∧ p.2 ∈ l) := by
  induction l generalizing d with
  | nil => exact Or.inl hp
  | cons e l ih =>
    rcases ih _ hp with h | ⟨h1, h2⟩
    · rcases mem_dictInsert h with h' | h'
      · exact Or.inl h'
      · refine Or.inr ⟨?_, ?_⟩
        · rw [h']
        · rw [h']
          exact List.mem_cons_self e l
    · exact Or.inr ⟨h1, List.mem_cons_of_mem e h2⟩

theorem mem_uniqueEquipment_cases {l : List EquipRecord}
    {p : String × EquipRecord} (hp : p ∈ uniqueEquipment l) :
    p.1 = elementId p.2 ∧ p.2 ∈ l := by
  rcases mem_foldl_dictInsert l [] p hp with h | h
  · cases h
  · exact h

theorem keys_dictInsert_nodup {d : List (String × EquipRecord)} {k : String}
    {v : EquipRecord} (hd : (d.map Prod.fst).Nodup) :
    ((dictInsert d k v).map Prod.fst).Nodup := by
  unfold dictInsert
  by_cases h : (d.any (fun p => p.1 == k)) = true
  · rw [if_pos h, List.map_map]
    have heq : d.map (Prod.fst ∘ fun p => if p.1 == k then (k, v) else p)
        = d.map Prod.fst := by
      apply List.map_congr_left
      intro a _
      by_cases hk : (a.1 == k) = true
      · simp only [Function.comp_apply, if_pos hk]
        exact (eq_of_beq hk).symm
      · simp only [Function.comp_apply, if_neg hk]
    rw [heq]
    exact hd
  · rw [if_neg h, List.map_append]
    refine List.Nodup.append hd (List.nodup_singleton k) ?_
    show (d.map Prod.fst).Disjoint [k]
    rw [List.disjoint_singleton]
    intro hk
    rcases List.mem_map.mp hk with ⟨q, hq, hq1⟩
    exact h (List.any_eq_true.mpr ⟨q, hq, by rw [hq1]; exact beq_self_eq_true k⟩)

theorem keys_foldl_dictInsert_nodup (l : List EquipRecord)
    (d : List (String × EquipRecord)) (hd : (d.map Prod.fst).Nodup) :
    (((l.foldl (fun d e => dictInsert d (elementId e) e) d)).map Prod.fst).Nodup := by
  induction l generalizing d with
  | nil => exact hd
  | cons e l ih => exact ih _ (keys_dictInsert_nodup hd)

theorem keys_uniqueEquipment_nodup (l : List EquipRecord) :
    ((uniqueEquipment l).map Prod.fst).Nodup :=
  keys_foldl_dictInsert_nodup l [] List.nodup_nil

theorem find?_dictInsert (d : List (String × EquipRecord)) (k' k : String)
    (v : EquipRecord) :
    (dictInsert d k' v).find? (fun p => p.1 == k)
      = if (k' == k) = true then some (k', v)
        else d.find? (fun p => p.1 == k) := by
  unfold dictInsert
  by_cases hany : (d.any (fun p => p.1 == k')) = true
  · rw [if_pos hany, List.find?_map]
    have hpred : ((fun p : String × EquipRecord => p.1 == k)
          ∘ fun p => if p.1 == k' then (k', v) else p)
        = fun p : String × EquipRecord => p.1 == k := by
      funext q
      show ((if (q.1 == k') = true then (k', v) else q).1 == k) = (q.1 == k)
      by_cases hq : (q.1 == k') = true
      · rw [if_pos hq]
        rw [eq_of_beq hq]
      · rw [if_neg hq]
    rw [hpred]
    by_cases hk : (k' == k) = true
    · have hkeq : k' = k := eq_of_beq hk
      subst hkeq
      rw [if_pos hk]
      rcases List.any_eq_true.mp hany with ⟨q, hq, hq1⟩
      have hsome : (d.find? (fun p => p.1 == k')).isSome = true :=
        List.find?_isSome.mpr ⟨q, hq, hq1⟩
      rcases Option.isSome_iff_exists.mp hsome with ⟨q0, hq0⟩
      have hq0p := List.find?_some hq0
      rw [hq0, Option.map_some']
      show some (if (q0.1 == k') = true then (k', v) else q0) = some (k', v)
      rw [if_pos hq0p]
    · rw [if_neg hk]
      cases hfind : d.find? (fun p => p.1 == k) with
      | none => rw [Option.map_none']
      | some q0 =>
        rw [Option.map_some']
        have h5 := List.find?_some hfind
        have h6 : q0.1 = k := eq_of_beq h5
        have h7 : (q0.1 == k') = false := by
          rw [h6]
          cases hc : (k == k') with
          | false => rfl
          | true => exact absurd (beq_iff_eq.mpr (eq_of_beq hc).symm) hk
        show some (if (q0.1 == k') = true then (k', v) else q0) = some q0
        rw [if_neg (by rw [h7]; exact Bool.false_ne_true)]
  · rw [if_neg hany, List.find?_append]
    by_cases hk : (k' == k) = true
    · have hkeq : k' = k := eq_of_beq hk
      subst hkeq
      rw [if_pos hk]
      have hnone : d.find? (fun p => p.1 == k') = none := by
        rw [List.find?_eq_none]
        intro x hx hcon
        exact hany (List.any_eq_true.mpr ⟨x, hx, hcon⟩)
      rw [hnone, Option.none_or]
      simp [List.find?_cons]
    · rw [if_neg hk]
      have hsing : List.find? (fun p => p.1 == k) [(k', v)] = none := by
        rw [List.find?_eq_none]
        intro x hx
        rw [List.mem_singleton.mp hx]
        exact hk
      rw [hsing, Option.or_none]

theorem find?_foldl_dictInsert (l : List EquipRecord)
    (d : List (String × EquipRecord)) (k : String) :
    (l.foldl (fun d e => dictInsert d (elementId e) e) d).find?
        (fun p => p.1 == k)
      = match lastOcc l k with
        | some e => some (k, e)
        | none => d.find? (fun p => p.1 == k) := by
  induction l generalizing d with
  | nil => rfl
  | cons e l ih =>
    show (l.foldl _ (dictInsert d (elementId e) e)).find? _ = _
    rw [ih]
    have hrev : lastOcc (e :: l) k
        = (lastOcc l k).or (if (elementId e == k) = true then some e else none) := by
      unfold lastOcc
      rw [List.reverse_cons, List.find?_append, List.find?_cons]
      cases hc : (elementId e == k) with
      | true => rfl
      | false => rfl
    rw [hrev]
    cases hlast : lastOcc l k with
    | some e' => rfl
    | none =>
      rw [find?_dictInsert]
      by_cases hc : (elementId e == k) = true
      · rw [if_pos hc, if_pos hc, eq_of_beq hc]
        rfl
      · rw [if_neg hc, if_neg hc]
        rfl

theorem find?_of_mem_nodup_keys {d : List (String × EquipRecord)}
    (hnd : (d.map Prod.fst).Nodup) {p : String × EquipRecord} (hp : p ∈ d) :
    d.find? (fun q => q.1 == p.1) = some p := by
  induction d with
  | nil => cases hp
  | cons q d ih =>
    rw [List.map_cons, List.nodup_cons] at hnd
    rcases List.mem_cons.mp hp with rfl | hp'
    · simp [List.find?_cons]
    · have hq : (q.1 == p.1) = false := by
        rw [beq_eq_false_iff_ne]
        intro hcon
        exact hnd.1 (hcon ▸ List.mem_map.mpr ⟨p, hp', rfl⟩)
      simp only [List.find?_cons, hq]
      exact ih hnd.2 hp'

theorem mem_uniqueEquipment_lastOcc {l : List EquipRecord}
    {p : String × EquipRecord} (hp : p ∈ uniqueEquipment l) :
    lastOcc l p.1 = some p.2 := by
  have hfind : (uniqueEquipment l).find? (fun q => q.1 == p.1) = some p :=
    find?_of_mem_nodup_keys (keys_uniqueEquipment_nodup l) hp
  have h2 : (uniqueEquipment l).find? (fun q => q.1 == p.1)
      = match lastOcc l p.1 with
        | some e => some (p.1, e)
        | none => List.find? (fun q => q.1 == p.1) [] :=
    find?_foldl_dictInsert l [] p.1
  rw [hfind] at h2
  cases hlast : lastOcc l p.1 with
  | none => rw [hlast] at h2; cases h2
  | some e =>
    rw [hlast] at h2
    have : p = (p.1, e) := by exact Option.some.inj h2
    rw [this]

theorem lastOcc_isSome_of_mem {l : List EquipRecord} {e : EquipRecord}
    (he : e ∈ l) : (lastOcc l (elementId e)).isSome = true := by
  unfold lastOcc
  exact List.find?_isSome.mpr
    ⟨e, List.mem_reverse.mpr he, by rw [beq_iff_eq]⟩

theorem uniqueEquipment_complete {l : List EquipRecord} {e : EquipRecord}
    (he : e ∈ l) :
    ∃ e', (elementId e, e') ∈ uniqueEquipment l
        ∧ lastOcc l (elementId e) = some e' := by
  rcases Option.isSome_iff_exists.mp (lastOcc_isSome_of_mem he) with ⟨e', he'⟩
  have h2 := find?_foldl_dictInsert l [] (elementId e)
  rw [he'] at h2
  exact ⟨e', List.mem_of_find?_eq_some h2, he'⟩

/-! Helper lemmas about the filtered batch. -/

theorem newEquipment_eq_nil {st : ServerState} {batch : List EquipRecord}
    (h : ∀ e ∈ batch, elementId e ∈ existingIds st.metadata_store) :
    newEquipment st.metadata_store batch = [] := by
  unfold newEquipment
  rw [List.map_eq_nil_iff, List.filter_eq_nil_iff]
  intro p hp
  rcases mem_uniqueEquipment_cases hp with ⟨h1, h2⟩
  have hc : (existingIds st.metadata_store).contains p.1 = true := by
    rw [h1]
    exact List.elem_iff.mpr (h p.2 h2)
  rw [hc]
  decide

theorem insert_json_batch_of_nil {embed : List String → Except String (List Vec)}
    {now : Int} {st : ServerState} {batch : List EquipRecord}
    (h : newEquipment st.metadata_store batch = []) :
    insert_json_batch embed now st batch = (st, .ok duplicateResponse) := by
  unfold insert_json_batch duplicateResponse
  rw [h]
  rfl

/-- C1: for every batch insert that completes successfully (the handler
returns a JSON response rather than raising), the metadata store grows by
exactly as many entries as the vector index, the appended records are the
filtered batch in order, and on the "ok" path the appended vectors are
exactly the embedding (one vector per rendered text, by the provider
contract `hembed`) of those records in the same order, so positional
alignment is preserved. -/
theorem insert_alignment_invariant
    (embed : List String → Except String (List Vec)) (now : Int)
    (st : ServerState) (batch : List EquipRecord)
    (st' : ServerState) (resp : InsertResponse)
    (hembed : ∀ ts vs, embed ts = .ok vs → vs.length = ts.length)
    (h : insert_json_batch embed now st batch = (st', .ok resp)) :
    st'.index.length - st.index.length
        = st'.metadata_store.length - st.metadata_store.length
      ∧ st'.metadata_store
          = st.metadata_store ++ newEquipment st.metadata_store batch
      ∧ (resp.status = "ok" →
          ∃ vecs,
            embed ((newEquipment st.metadata_store batch).map
                format_equipment_text) = .ok vecs
              ∧ st'.index = st.index ++ vecs
              ∧ vecs.length = (newEquipment st.metadata_store batch).length) := by
  unfold insert_json_batch at h
  by_cases hemp : (newEquipment st.metadata_store batch).isEmpty = true
  · rw [if_pos hemp] at h
    rw [Prod.mk.injEq] at h
    obtain ⟨h1, h2⟩ := h
    subst h1
    injection h2 with h2
    subst h2
    refine ⟨by rw [Nat.sub_self, Nat.sub_self], ?_, ?_⟩
    · rw [List.isEmpty_iff.mp hemp, List.append_nil]
    · intro hok
      exact absurd hok (by decide)
  · rw [if_neg hemp] at h
    cases hev : embed ((newEquipment st.metadata_store batch).map
        format_equipment_text) with
    | error m =>
      simp only [hev] at h
      rw [Prod.mk.injEq] at h
      exact absurd h.2 (by intro hcon; cases hcon)
    | ok vectors =>
      simp only [hev] at h
      by_cases hve : vectors.isEmpty = true
      · rw [if_pos hve] at h
        rw [Prod.mk.injEq] at h
        exact absurd h.2 (by intro hcon; cases hcon)
      · rw [if_neg hve] at h
        rw [Prod.mk.injEq] at h
        obtain ⟨h1, h2⟩ := h
        injection h2 with h2
        subst h2
        have hlen : vectors.length
            = (newEquipment st.metadata_store batch).length := by
          rw [hembed _ _ hev, List.length_map]
        refine ⟨?_, ?_, ?_⟩
        · rw [← h1]
          simp only [List.length_append]
          rw [Nat.add_sub_cancel_left, Nat.add_sub_cancel_left, hlen]
        · rw [← h1]
        · intro _
          exact ⟨vectors, rfl, by rw [← h1], hlen⟩

/-- Witness for C1 at a concrete input: inserting two fresh records into the
empty state through an embedding oracle returning one vector per text. -/
theorem insert_alignment_invariant_witness :
    ((⟨[[0], [0]], [recA1, recB1], [recA1, recB1], 7⟩ : ServerState)).index.length
        - emptyState.index.length
      = ((⟨[[0], [0]], [recA1, recB1], [recA1, recB1], 7⟩ : ServerState)).metadata_store.length
        - emptyState.metadata_store.length :=
  (insert_alignment_invariant embedOne 7 emptyState [recA1, recB1]
      ⟨[[0], [0]], [recA1, recB1], [recA1, recB1], 7⟩
      ⟨"ok", none, 2, some 2, some 2, 200⟩
      (by
        intro ts vs hv
        injection hv with hv
        rw [← hv, List.length_map])
      rfl).1

/-- C4: a batch in which every identifier is already in the store filters
down to nothing; the handler answers status "duplicate", inserted 0, HTTP
409, and the state (so store length and index size) is unchanged. -/
theorem insert_all_duplicates_noop
    (embed : List String → Except String (List Vec)) (now : Int)
    (st : ServerState) (batch : List EquipRecord)
    (h : ∀ e ∈ batch, elementId e ∈ existingIds st.metadata_store) :
    insert_json_batch embed now st batch = (st, .ok duplicateResponse)
      ∧ duplicateResponse.status = "duplicate"
      ∧ duplicateResponse.inserted = 0
      ∧ duplicateResponse.httpStatus = 409 :=
  ⟨insert_json_batch_of_nil (newEquipment_eq_nil h), rfl, rfl, rfl⟩

/-- Witness for C4 at a concrete input: re-submitting the only stored
record. -/
theorem insert_all_duplicates_noop_witness :
    insert_json_batch embedOne 3 ⟨[[0]], [recA1], [], 0⟩ [recA1]
      = (⟨[[0]], [recA1], [], 0⟩, .ok duplicateResponse) :=
  (insert_all_duplicates_noop embedOne 3 ⟨[[0]], [recA1], [], 0⟩ [recA1]
    (by decide)).1

/-- C6: whenever insert_json_batch ends in a raised exception (in particular
when the embedding call fails), the server state -- vector index, metadata
store, staging pool and last-append time -- is exactly what it was before
the request: no partial commit. -/
theorem insert_embed_failure_no_partial_commit
    (embed : List String → Except String (List Vec)) (now : Int)
    (st : ServerState) (batch : List EquipRecord) (msg : String)
    (h : (insert_json_batch embed now st batch).2 = .error msg) :
    (insert_json_batch embed now st batch).1 = st := by
  unfold insert_json_batch at h ⊢
  by_cases hemp : (newEquipment st.metadata_store batch).isEmpty = true
  · rw [if_pos hemp]
  · rw [if_neg hemp] at h ⊢
    cases hev : embed ((newEquipment st.metadata_store batch).map
        format_equipment_text) with
    | error m => simp only [hev]
    | ok vectors =>
      simp only [hev] at h ⊢
      by_cases hve : vectors.isEmpty = true
      · rw [if_pos hve]
      · rw [if_neg hve] at h
        exact absurd h (by intro hcon; cases hcon)

/-- Witness for C6 at a concrete input: an embedding oracle that always
raises, applied to a fresh record over the empty state. -/
theorem insert_embed_failure_no_partial_commit_witness :
    (insert_json_batch (fun _ => .error "boom") 0 emptyState [recA1]).2
        = .error "boom"
      ∧ (insert_json_batch (fun _ => .error "boom") 0 emptyState [recA1]).1
        = emptyState :=
  ⟨rfl, insert_embed_failure_no_partial_commit _ 0 emptyState [recA1] "boom" rfl⟩

/-- Counterexample to C3 as stated: an embedding-provider failure during
/insert_json_batch is NOT caught at the handler boundary.  The handler has
no try/except, so the exception (an `Except.error` value here) escapes to
the framework instead of being converted into a JSON error object by the
handler. -/
theorem insert_error_escapes_handler :
    (insert_json_batch (fun _ => .error "embedding failed") 0 emptyState
        [recB1]).2
      = .error "embedding failed" := rfl

/-- C3 as amended: every modelled handler that wraps its body in try/except
(query, query/summary, save_now; the export handlers return their error
responses directly) converts an external-call failure into a JSON error
object with a message and HTTP 500 -- but /insert_json_batch, which has no
try/except, lets an embedding failure escape the handler uncaught. -/
theorem handler_error_boundary :
    (∀ (msg : String) (tk : Option Nat) (st : ServerState),
        query_equipment (.error msg) tk st = .errorResp msg 500)
      ∧ (∀ (msg : String) (cc : String → Except String String)
            (tk : Option Nat) (st : ServerState) (q : String),
          query_summary (.error msg) cc tk st q = .errorResp msg 500)
      ∧ (∀ (msg : String) (st : ServerState),
          save_now (.error msg) st = .errorResp msg 500)
      ∧ (∀ (embed : List String → Except String (List Vec)) (now : Int)
            (st : ServerState) (batch : List EquipRecord) (msg : String),
          (∀ ts, embed ts = .error msg) →
          newEquipment st.metadata_store batch ≠ [] →
          (insert_json_batch embed now st batch).2 = .error msg) := by
  refine ⟨fun _ _ _ => rfl, fun _ _ _ _ _ => rfl, fun _ _ => rfl, ?_⟩
  intro embed now st batch msg hfail hne
  unfold insert_json_batch
  rw [if_neg (by rw [List.isEmpty_iff]; exact hne), hfail]

/-- Witness for C3 (amended) at concrete inputs: a failing query embedding
is converted to a 500 JSON error, while the same failure inside
/insert_json_batch escapes the handler. -/
theorem handler_error_boundary_witness :
    query_equipment (.error "prov down") none emptyState
        = .errorResp "prov down" 500
      ∧ (insert_json_batch (fun _ => .error "prov down") 0 emptyState
            [recInt5]).2
        = .error "prov down" :=
  ⟨handler_error_boundary.1 "prov down" none emptyState,
    handler_error_boundary.2.2.2 _ 0 emptyState [recInt5] "prov down"
      (fun _ => rfl) (by decide)⟩

/-! Helper lemmas characterizing the filtered batch for the dedup claims. -/

theorem newEquipment_mem {store batch : List EquipRecord} {e : EquipRecord}
    (hp : e ∈ newEquipment store batch) :
    elementId e ∉ existingIds store ∧ lastOcc batch (elementId e) = some e := by
  unfold newEquipment at hp
  rcases List.mem_map.mp hp with ⟨p, hpf, hp2⟩
  rcases List.mem_filter.mp hpf with ⟨hpd, hpq⟩
  rcases mem_uniqueEquipment_cases hpd with ⟨hk, _⟩
  have hid : elementId e = p.1 := by rw [← hp2, ← hk]
  constructor
  · rw [hid]
    intro hmem
    rw [Bool.not_eq_true'] at hpq
    have h1 : (existingIds store).contains p.1 = true := List.elem_iff.mpr hmem
    rw [hpq] at h1
    exact Bool.false_ne_true h1
  · rw [hid, mem_uniqueEquipment_lastOcc hpd, hp2]

theorem newEquipment_complete {store batch : List EquipRecord}
    {e : EquipRecord} (he : e ∈ batch)
    (hnew : elementId e ∉ existingIds store) :
    elementId e ∈ (newEquipment store batch).map elementId := by
  rcases uniqueEquipment_complete he with ⟨e', hmem, _⟩
  have hq : (!(existingIds store).contains (elementId e, e').1) = true := by
    cases hc : (existingIds store).contains (elementId e) with
    | false => rfl
    | true => exact absurd (List.elem_iff.mp hc) hnew
  have he' : e' ∈ newEquipment store batch := by
    unfold newEquipment
    exact List.mem_map.mpr ⟨(elementId e, e'), List.mem_filter.mpr ⟨hmem, hq⟩, rfl⟩
  have hkid : elementId e' = elementId e :=
    ((mem_uniqueEquipment_cases hmem).1).symm
  exact List.mem_map.mpr ⟨e', he', hkid⟩

theorem newEquipment_ids_nodup (store batch : List EquipRecord) :
    ((newEquipment store batch).map elementId).Nodup := by
  unfold newEquipment
  rw [List.map_map]
  have hcongr : ((uniqueEquipment batch).filter
          (fun p => !(existingIds store).contains p.1)).map (elementId ∘ Prod.snd)
      = ((uniqueEquipment batch).filter
          (fun p => !(existingIds store).contains p.1)).map Prod.fst := by
    apply List.map_congr_left
    intro p hp
    have hpd := (List.mem_filter.mp hp).1
    exact ((mem_uniqueEquipment_cases hpd).1).symm
  rw [hcongr]
  exact List.Nodup.sublist
    (List.Sublist.map Prod.fst (List.filter_sublist (uniqueEquipment batch)))
    (keys_uniqueEquipment_nodup batch)

/-- Characterization of the successful ("ok") branch of insert_json_batch:
the embedding call succeeded, and state and response are exactly the
appended forms. -/
theorem insert_ok_inv (embed : List String → Except String (List Vec))
    (now : Int) (st : ServerState) (batch : List EquipRecord)
    (st' : ServerState) (resp : InsertResponse)
    (h : insert_json_batch embed now st batch = (st', .ok resp))
    (hok : resp.status = "ok") :
    ∃ vectors,
      embed ((newEquipment st.metadata_store batch).map format_equipment_text)
          = .ok vectors
        ∧ st' = ⟨st.index ++ vectors,
                 st.metadata_store ++ newEquipment st.metadata_store batch,
                 st.batch_pool ++ newEquipment st.metadata_store batch, now⟩
        ∧ resp = ⟨"ok", none, (newEquipment st.metadata_store batch).length,
                  some (st.metadata_store
                      ++ newEquipment st.metadata_store batch).length,
                  some (st.batch_pool
                      ++ newEquipment st.metadata_store batch).length, 200⟩ := by
  unfold insert_json_batch at h
  by_cases hemp : (newEquipment st.metadata_store batch).isEmpty = true
  · rw [if_pos hemp] at h
    rw [Prod.mk.injEq] at h
    obtain ⟨_, h2⟩ := h
    injection h2 with h2
    rw [← h2] at hok
    exact absurd hok (by decide)
  · rw [if_neg hemp] at h
    cases hev : embed ((newEquipment st.metadata_store batch).map
        format_equipment_text) with
    | error m =>
      simp only [hev] at h
      rw [Prod.mk.injEq] at h
      exact absurd h.2 (by intro hcon; cases hcon)
    | ok vectors =>
      simp only [hev] at h
      by_cases hve : vectors.isEmpty = true
      · rw [if_pos hve] at h
        rw [Prod.mk.injEq] at h
        exact absurd h.2 (by intro hcon; cases hcon)
      · rw [if_neg hve] at h
        rw [Prod.mk.injEq] at h
        obtain ⟨h1, h2⟩ := h
        injection h2 with h2
        exact ⟨vectors, rfl, h1.symm, h2.symm⟩

/-- C5: insert deduplicates the batch by identifier, keeping for each
identifier the record of its last occurrence in the batch (last-write-wins),
then discards identifiers already in the store; on a successful mixed batch
exactly the new-identifier records are appended (each the last occurrence of
its identifier, every new identifier represented, no identifier twice) and
the returned total_in_db is the metadata store length after the insert. -/
theorem insert_dedup_last_write_wins
    (embed : List String → Except String (List Vec)) (now : Int)
    (st : ServerState) (batch : List EquipRecord)
    (st' : ServerState) (resp : InsertResponse)
    (h : insert_json_batch embed now st batch = (st', .ok resp))
    (hok : resp.status = "ok") :
    st'.metadata_store
        = st.metadata_store ++ newEquipment st.metadata_store batch
      ∧ resp.total_in_db = some st'.metadata_store.length
      ∧ resp.inserted = (newEquipment st.metadata_store batch).length
      ∧ (∀ e ∈ newEquipment st.metadata_store batch,
          elementId e ∉ existingIds st.metadata_store
            ∧ lastOcc batch (elementId e) = some e)
      ∧ (∀ e ∈ batch, elementId e ∉ existingIds st.metadata_store →
          elementId e ∈ (newEquipment st.metadata_store batch).map elementId)
      ∧ ((newEquipment st.metadata_store batch).map elementId).Nodup := by
  rcases insert_ok_inv embed now st batch st' resp h hok with
    ⟨vectors, _, hst, hresp⟩
  refine ⟨by rw [hst], ?_, by rw [hresp], fun e he => newEquipment_mem he,
    fun e he hn => newEquipment_complete he hn,
    newEquipment_ids_nodup st.metadata_store batch⟩
  rw [hresp, hst]

/-- Witness for C5 at a concrete input: a batch mixing the stored identifier
A1 with the fresh identifier B1. -/
theorem insert_dedup_last_write_wins_witness :
    (⟨"ok", none, 1, some 2, some 1, 200⟩ : InsertResponse).total_in_db
      = some (⟨[[0], [0]], [recA1, recB1], [recB1], 5⟩
          : ServerState).metadata_store.length :=
  (insert_dedup_last_write_wins embedOne 5 ⟨[[0]], [recA1], [], 0⟩
      [recA1, recB1] ⟨[[0], [0]], [recA1, recB1], [recB1], 5⟩
      ⟨"ok", none, 1, some 2, some 1, 200⟩ rfl rfl).2.1

/-- C10: the ingest pipeline identifies records by the Python str()
rendering of their element field: any two records whose element values have
the same string form are the same identifier (within a batch the later one
wins; against the store the batch record is discarded as a duplicate), and
in particular the integer 5 and the string "5" render alike, as do a
missing element field and a null one (both "None"). -/
theorem dedup_by_string_rendering :
    (∀ e1 e2 : EquipRecord, elementId e1 = elementId e2 →
        uniqueEquipment [e1, e2] = [(elementId e2, e2)])
      ∧ (∀ (embed : List String → Except String (List Vec)) (now : Int)
            (st : ServerState) (e : EquipRecord),
          elementId e ∈ existingIds st.metadata_store →
          insert_json_batch embed now st [e] = (st, .ok duplicateResponse))
      ∧ elementId recInt5 = "5" ∧ elementId recStr5 = "5"
      ∧ elementId recNoElem = "None"
      ∧ elementId (⟨[("element", .jnull)]⟩ : EquipRecord) = "None" := by
  refine ⟨?_, ?_, rfl, rfl, rfl, rfl⟩
  · intro e1 e2 h
    show dictInsert (dictInsert [] (elementId e1) e1) (elementId e2) e2 = _
    rw [h]
    unfold dictInsert
    simp
  · intro embed now st e hmem
    exact insert_json_batch_of_nil
      (newEquipment_eq_nil (fun e' he' => by
        rw [List.mem_singleton.mp he']
        exact hmem))

/-- Witness for C10 at concrete inputs: a record with integer element 5 and
one with string element "5" collapse to one dict entry (the later record),
and the integer-5 record is rejected as a duplicate of the stored
string-"5" record. -/
theorem dedup_by_string_rendering_witness :
    uniqueEquipment [recInt5, recStr5] = [("5", recStr5)]
      ∧ insert_json_batch embedOne 0 (⟨[[0]], [recStr5], [], 0⟩ : ServerState)
          [recInt5]
        = (⟨[[0]], [recStr5], [], 0⟩, .ok duplicateResponse) :=
  ⟨(dedup_by_string_rendering.1 recInt5 recStr5 (by decide)).trans (by decide),
    dedup_by_string_rendering.2.1 embedOne 0 ⟨[[0]], [recStr5], [], 0⟩ recInt5
      (by decide)⟩

/-- C7: exporting the database JSON fails with the empty-database 400 error
exactly when the metadata store is empty; with at least one record it
succeeds with the regenerated snapshot, whose data_consistency flag is true
exactly when the vector count equals the record count. -/
theorem export_database_json_spec (st : ServerState) :
    ((∃ m, export_database_json st = .errorResp m 400)
        ↔ st.metadata_store = [])
      ∧ (st.metadata_store ≠ [] →
          export_database_json st = .fileResp (save_complete_database st)
            ∧ ((save_complete_database st).data_consistency = true
                ↔ st.index.length = st.metadata_store.length)) := by
  constructor
  · constructor
    · rintro ⟨m, hm⟩
      unfold export_database_json at hm
      by_cases h : (st.metadata_store.length == 0) = true
      · exact List.length_eq_zero.mp (beq_iff_eq.mp h)
      · rw [if_neg h] at hm
        cases hm
    · intro h
      refine ⟨"No data to export. Database is empty.", ?_⟩
      unfold export_database_json
      rw [if_pos (by rw [h]; rfl)]
  · intro h
    have hlen : ¬ ((st.metadata_store.length == 0) = true) := by
      rw [beq_iff_eq, List.length_eq_zero]
      exact h
    constructor
    · unfold export_database_json
      rw [if_neg hlen]
    · show (st.index.length == st.metadata_store.length) = true ↔ _
      exact beq_iff_eq

/-- Witness for C7 at a concrete input: a one-record, one-vector state
exports successfully and reports a consistent snapshot. -/
theorem export_database_json_spec_witness :
    export_database_json (⟨[[0]], [recA1], [], 0⟩ : ServerState)
        = .fileResp (save_complete_database ⟨[[0]], [recA1], [], 0⟩)
      ∧ (save_complete_database
          (⟨[[0]], [recA1], [], 0⟩ : ServerState)).data_consistency = true :=
  ⟨((export_database_json_spec ⟨[[0]], [recA1], [], 0⟩).2 (by decide)).1,
    ((export_database_json_spec ⟨[[0]], [recA1], [], 0⟩).2
        (by decide)).2.mpr rfl⟩

/-- C8: the drain the claim describes never happens in the code.  At the
failing input -- a one-record pool, idle for 40 time units (more than 30 by
any reading) when the timer fires -- the monitor thread self-deadlocks on
the nested acquisition of the non-reentrant batch_pool_lock inside
save_and_clear_pool and the pool is not cleared; and on every input
whatsoever the tick either deadlocks or completes with the pool exactly as
it was, so the pool size never drops to zero. -/
theorem pool_drain_deadlock :
    pool_monitor_tick 40 [recA1] 0 = .deadlocked [recA1]
      ∧ ∀ (now last : Int) (pool : List EquipRecord),
          pool_monitor_tick now pool last = .deadlocked pool
            ∨ pool_monitor_tick now pool last = .completed pool := by
  refine ⟨by decide, ?_⟩
  intro now last pool
  unfold pool_monitor_tick
  by_cases h : (!pool.isEmpty && decide (now - last > 30)) = true
  · rw [if_pos h]
    exact Or.inl rfl
  · rw [if_neg h]
    exact Or.inr rfl

/-- C9: the bundle is built with the regenerated database JSON always first,
each raw persistence file appears in the zip exactly when it exists on disk,
and a missing raw file does not abort the export -- the bundle is simply
produced with fewer than three entries. -/
theorem three_file_export_spec (st : ServerState) (iex mex : Bool) :
    (create_three_file_export st iex mex).head?
        = some (ZipEntry.databaseJson (save_complete_database st))
      ∧ (ZipEntry.faissIndexFile ∈ create_three_file_export st iex mex
          ↔ iex = true)
      ∧ (ZipEntry.metadataPkl ∈ create_three_file_export st iex mex
          ↔ mex = true)
      ∧ (create_three_file_export st iex mex).length
          = 1 + (if iex then 1 else 0) + (if mex then 1 else 0)
      ∧ (¬(iex = true ∧ mex = true) →
          (create_three_file_export st iex mex).length < 3) := by
  unfold create_three_file_export
  cases iex <;> cases mex <;> simp

/-- Witness for C9 at a concrete input: with the metadata pickle missing on
disk the bundle still succeeds, holding only two entries. -/
theorem three_file_export_spec_witness :
    (create_three_file_export emptyState true false).length < 3 :=
  (three_file_export_spec emptyState true false).2.2.2.2 (by decide)

/-- Sequencing a list of all-successful lookups yields the list of looked-up
values. -/
theorem seqOpt_map_getD {α : Type} (f : Int → Option α) (d : α) :
    ∀ l : List Int, (∀ i ∈ l, (f i).isSome = true) →
      seqOpt (l.map f) = some (l.map (fun i => (f i).getD d))
  | [], _ => rfl
  | i :: l, h => by
    have hrest := seqOpt_map_getD f d l
      (fun j hj => h j (List.mem_cons_of_mem i hj))
    cases hfi : f i with
    | none =>
      have hi := h i (List.mem_cons_self i l)
      rw [hfi] at hi
      exact absurd hi Bool.false_ne_true
    | some a =>
      show seqOpt (f i :: l.map f) = _
      show (match f i, seqOpt (l.map f) with
            | some a, some l' => some (a :: l')
            | _, _ => none) = _
      rw [hfi, hrest]
      show some (a :: l.map fun j => (f j).getD d)
        = some ((f i).getD d :: l.map fun j => (f j).getD d)
      rw [hfi]
      rfl

/-- Counterexample to C2 as stated: with two stored vectors and top_k
omitted (so k defaults to 50), FAISS pads its single result row to 50
labels with -1; the guard i < len(metadata_store) admits -1, and Python
indexing maps -1 to the last store position, so the positions the handler
returns are not in ascending distance order (the far vector at position 0
is followed by the near vector at position 1 again). -/
theorem query_default_topk_order_violation :
    pyGetTopK none = 50
      ∧ ¬ List.Pairwise
          (fun i j => sqDist [0] (pyVecAt stTwo.index i)
              ≤ sqDist [0] (pyVecAt stTwo.index j))
          (query_labels_kept stTwo [0] (pyGetTopK none)) := by decide

/-- C2 as amended: whenever the requested k (default 50 when top_k is
omitted) does not exceed the number of indexed vectors, the query handler
keeps at most k result positions, every kept position is a valid metadata
store index in [0, store length), the kept positions are in ascending
(squared) L2 distance of their index vectors from the query embedding, and
the handler returns exactly the store entries at those positions in that
order.  (When k exceeds the index size the -1 padding labels break the
distance order; see the counterexample.) -/
theorem query_topk_within_index_correct (st : ServerState) (qv : Vec)
    (tk : Option Nat) (hk : pyGetTopK tk ≤ st.index.length) :
    (query_labels_kept st qv (pyGetTopK tk)).length ≤ pyGetTopK tk
      ∧ (∀ i ∈ query_labels_kept st qv (pyGetTopK tk),
          0 ≤ i ∧ i < (st.metadata_store.length : Int))
      ∧ List.Pairwise
          (fun i j => sqDist qv (pyVecAt st.index i)
              ≤ sqDist qv (pyVecAt st.index j))
          (query_labels_kept st qv (pyGetTopK tk))
      ∧ query_equipment (.ok qv) tk st
          = .results ((query_labels_kept st qv (pyGetTopK tk)).map
              (fun i => (pyGetItem st.metadata_store i).getD ⟨[]⟩)) := by
  have hlabels : faissSearchLabels st.index qv (pyGetTopK tk)
      = ((List.insertionSort
            (fun a b => sqDist qv a.2 ≤ sqDist qv b.2) st.index.enum).map
          (fun p => (p.1 : Int))).take (pyGetTopK tk) := by
    unfold faissSearchLabels
    rw [Nat.sub_eq_zero_of_le hk, List.replicate_zero, List.append_nil]
  have hmemranked : ∀ a ∈ List.insertionSort
      (fun a b => sqDist qv a.2 ≤ sqDist qv b.2) st.index.enum,
      st.index.get? a.1 = some a.2 := by
    intro a ha
    have hmem : a ∈ st.index.enum :=
      (List.perm_insertionSort
        (fun a b => sqDist qv a.2 ≤ sqDist qv b.2) st.index.enum).mem_iff.mp ha
    rw [List.get?_eq_getElem?]
    exact List.mem_enum_iff_getElem?.mp hmem
  have hvec : ∀ a ∈ List.insertionSort
      (fun a b => sqDist qv a.2 ≤ sqDist qv b.2) st.index.enum,
      pyVecAt st.index (a.1 : Int) = a.2 := by
    intro a ha
    unfold pyVecAt pyGetItem
    rw [if_pos (Int.natCast_nonneg a.1), Int.toNat_natCast, hmemranked a ha]
    rfl
  have hmemlab : ∀ i ∈ faissSearchLabels st.index qv (pyGetTopK tk),
      ∃ a ∈ List.insertionSort
        (fun a b => sqDist qv a.2 ≤ sqDist qv b.2) st.index.enum,
        i = (a.1 : Int) := by
    intro i hi
    rw [hlabels] at hi
    have hi' := List.take_subset _ _ hi
    rcases List.mem_map.mp hi' with ⟨a, ha, hai⟩
    exact ⟨a, ha, hai.symm⟩
  have hvalid : ∀ i ∈ query_labels_kept st qv (pyGetTopK tk),
      0 ≤ i ∧ i < (st.metadata_store.length : Int) := by
    intro i hi
    unfold query_labels_kept at hi
    rcases List.mem_filter.mp hi with ⟨hi1, hi2⟩
    rcases hmemlab i hi1 with ⟨a, _, rfl⟩
    exact ⟨Int.natCast_nonneg a.1, of_decide_eq_true hi2⟩
  refine ⟨?_, hvalid, ?_, ?_⟩
  · unfold query_labels_kept
    refine le_trans (List.length_filter_le _ _) ?_
    rw [hlabels, List.length_take]
    exact inf_le_left
  · haveI : IsTotal (Nat × Vec)
        (fun a b => sqDist qv a.2 ≤ sqDist qv b.2) :=
      ⟨fun a b => le_total _ _⟩
    haveI : IsTrans (Nat × Vec)
        (fun a b => sqDist qv a.2 ≤ sqDist qv b.2) :=
      ⟨fun a b c h1 h2 => le_trans h1 h2⟩
    have hsorted : List.Sorted (fun a b => sqDist qv a.2 ≤ sqDist qv b.2)
        (List.insertionSort
          (fun a b => sqDist qv a.2 ≤ sqDist qv b.2) st.index.enum) :=
      List.sorted_insertionSort _ _
    have hS : List.Pairwise
        (fun a b : Nat × Vec =>
          sqDist qv (pyVecAt st.index (a.1 : Int))
            ≤ sqDist qv (pyVecAt st.index (b.1 : Int)))
        (List.insertionSort
          (fun a b => sqDist qv a.2 ≤ sqDist qv b.2) st.index.enum) := by
      refine List.Pairwise.imp_of_mem ?_ hsorted
      intro a b ha hb hab
      rw [hvec a ha, hvec b hb]
      exact hab
    have hmapped : List.Pairwise
        (fun i j => sqDist qv (pyVecAt st.index i)
            ≤ sqDist qv (pyVecAt st.index j))
        ((List.insertionSort
            (fun a b => sqDist qv a.2 ≤ sqDist qv b.2) st.index.enum).map
          (fun p => (p.1 : Int))) :=
      List.pairwise_map.mpr hS
    unfold query_labels_kept
    refine List.Pairwise.sublist (List.filter_sublist _) ?_
    rw [hlabels]
    exact List.Pairwise.sublist (List.take_sublist _ _) hmapped
  · have hsome : ∀ i ∈ query_labels_kept st qv (pyGetTopK tk),
        (pyGetItem st.metadata_store i).isSome = true := by
      intro i hi
      rcases hvalid i hi with ⟨h0, hlt⟩
      unfold pyGetItem
      rw [if_pos h0, List.get?_eq_getElem?]
      simp [(Int.toNat_lt h0).mpr hlt]
    have hseq := seqOpt_map_getD (pyGetItem st.metadata_store)
      (⟨[]⟩ : EquipRecord) (query_labels_kept st qv (pyGetTopK tk)) hsome
    show (match seqOpt ((query_labels_kept st qv (pyGetTopK tk)).map
          (pyGetItem st.metadata_store)) with
        | none => QueryResult.errorResp "list index out of range" 500
        | some recs => QueryResult.results recs)
      = _
    rw [hseq]

/-- Witness for C2 (amended) at a concrete input: one stored vector with
top_k = 1 returns exactly the stored record. -/
theorem query_topk_within_index_correct_witness :
    pyGetTopK (some 1)
        ≤ (⟨[[0]], [recA1], [], 0⟩ : ServerState).index.length
      ∧ query_equipment (.ok [0]) (some 1) ⟨[[0]], [recA1], [], 0⟩
        = .results [recA1] := by
  have h := (query_topk_within_index_correct ⟨[[0]], [recA1], [], 0⟩ [0]
    (some 1) (by decide)).2.2.2
  exact ⟨by decide, by rw [h]; decide⟩

end FaissServer
